import Mathlib

/-!
Verification of the `composegen` package (`pkg/composegen/composegen.go`):
a shallow embedding, in Lean 4, of the compose-file generator together with
proofs about its behaviour.

The Docker client is an external collaborator; it is modelled as a record of
query results (`Client`).  Go `map` values are modelled as association lists,
Go map iteration as iteration in list order.  A Go `log.Printf` call is
modelled by appending a line to a log list; the generator returns its result,
the log lines, and the number of `ContainerInspect` calls it performed.
-/

namespace Composegen

/-! ## Go interface values

`ignoreValues` in the source is a `[]interface{}`.  The Go values that reach
an `interface{}` comparison in this program have the following dynamic types:
`string`, `container.RestartPolicyMode` (a named string type, Docker API v25+,
matching the `container.ListOptions` usage in the source), `int`, `bool`,
`[]string`, `strslice.StrSlice`, `map[string]string`, the untyped `nil`, and
the sentinel literals `[]interface{}{}` and `map[string]interface{}{}`; the
network sections also hold nested `map[string]interface{}` values (the `ipam`
block), modelled by a dedicated constructor for its fixed shape. -/
inductive GoValue where
  | nilV
  | str (s : String)
  | restartPolicy (s : String)
  | intV (n : Int)
  | boolV (b : Bool)
  | strList (xs : List String)
  | strSliceV (xs : List String)
  | strMap (m : List (String × String))
  | emptyIfaceList
  | emptyIfaceMap
  | ipamV (driver : String) (config : List (String × String))
  deriving Repr, DecidableEq

/-- Go comparison of two interface values panics exactly when the two dynamic
types are identical and not comparable (slices and maps). `emptyIfaceMap` and
`ipamV` both carry the Go dynamic type `map[string]interface{}`. -/
def goPanics : GoValue → GoValue → Bool
  | .strList _, .strList _ => true
  | .strSliceV _, .strSliceV _ => true
  | .strMap _, .strMap _ => true
  | .emptyIfaceList, .emptyIfaceList => true
  | .emptyIfaceMap, .emptyIfaceMap => true
  | .emptyIfaceMap, .ipamV _ _ => true
  | .ipamV _ _, .emptyIfaceMap => true
  | .ipamV _ _, .ipamV _ _ => true
  | _, _ => false

/-- Go `==` on two interface values of identical comparable dynamic type;
interfaces of distinct dynamic types are unequal, two nil interfaces are
equal. -/
def goEqRaw : GoValue → GoValue → Bool
  | .nilV, .nilV => true
  | .str a, .str b => a == b
  | .restartPolicy a, .restartPolicy b => a == b
  | .intV a, .intV b => a == b
  | .boolV a, .boolV b => a == b
  | _, _ => false

/-- Go `value == iv` on interfaces: `none` models a run-time panic. -/
def goEq (a b : GoValue) : Option Bool :=
  if goPanics a b then none else some (goEqRaw a b)

/-- Embedding of `var ignoreValues = []interface{}{nil, "", []interface{}{}, "null",
map[string]interface{}{}, "default", 0, ",", "no"}` (composegen.go line 16). -/
def ignoreValues : List GoValue :=
  [.nilV, .str "", .emptyIfaceList, .str "null", .emptyIfaceMap,
   .str "default", .intV 0, .str ",", .str "no"]

/-- The loop body of `isIgnoredValue`: first equal sentinel wins; a panicking
comparison aborts (modelled as `none`). -/
def isIgnoredValueAux (v : GoValue) : List GoValue → Option Bool
  | [] => some false
  | iv :: rest =>
    match goEq v iv with
    | none => none
    | some true => some true
    | some false => isIgnoredValueAux v rest

/-- Embedding of `isIgnoredValue` (composegen.go lines 214-221). -/
def isIgnoredValue (v : GoValue) : Option Bool :=
  isIgnoredValueAux v ignoreValues

/-- The values on which `isIgnoredValue` cannot panic: every dynamic type the
record normalizer actually produces. -/
def safeValue : GoValue → Bool
  | .nilV => true
  | .str _ => true
  | .restartPolicy _ => true
  | .intV _ => true
  | .boolV _ => true
  | .strList _ => true
  | .strSliceV _ => true
  | .strMap _ => true
  | .emptyIfaceList => false
  | .emptyIfaceMap => false
  | .ipamV _ _ => false

/-- The values that Go `==` actually matches against some entry of
`ignoreValues`: the five sentinel strings (with dynamic type `string`), the
integer zero and the nil interface.  No slice-, map-, bool- or
`RestartPolicyMode`-typed value ever equals a sentinel, because its dynamic
type differs from that of every sentinel. -/
def goSentinel : GoValue → Bool
  | .nilV => true
  | .str s => s == "" || s == "null" || s == "default" || s == "," || s == "no"
  | .intV n => n == 0
  | _ => false

/-- Modelled from the spec: "drop any key whose value deep-equals one of:
null/absent, empty string, empty list, the literal string `"null"`, empty
mapping, the literal string `"default"`, the integer `0`, the literal string
`","`, the literal string `"no"`" — deep (value-based, type-insensitive)
equality, the reading asserted by the claim under scrutiny. -/
def deepEqualSentinel : GoValue → Bool
  | .nilV => true
  | .str s => s == "" || s == "null" || s == "default" || s == "," || s == "no"
  | .restartPolicy s => s == "" || s == "null" || s == "default" || s == "," || s == "no"
  | .intV n => n == 0
  | .boolV _ => false
  | .strList xs => xs.isEmpty
  | .strSliceV xs => xs.isEmpty
  | .strMap m => m.isEmpty
  | .emptyIfaceList => true
  | .emptyIfaceMap => true
  | .ipamV _ _ => false

/-- The filtering loop of `generate` (composegen.go lines 166-170): keep the
pairs whose value is not ignored; `none` models the (unreachable) panic. -/
def dropIgnored : List (String × GoValue) → Option (List (String × GoValue))
  | [] => some []
  | (k, v) :: rest => do
    let b ← isIgnoredValue v
    let tail ← dropIgnored rest
    pure (if b then tail else (k, v) :: tail)

/-! ## Characterisation of the ignore check -/

theorem isIgnoredValue_eq_goSentinel (v : GoValue) (hv : safeValue v = true) :
    isIgnoredValue v = some (goSentinel v) := by
  cases v with
  | str s =>
    simp only [isIgnoredValue, ignoreValues, isIgnoredValueAux, goEq, goPanics, goEqRaw,
      goSentinel]
    by_cases h1 : s = ""
    · subst h1; rfl
    · by_cases h2 : s = "null"
      · subst h2; rfl
      · by_cases h3 : s = "default"
        · subst h3; rfl
        · by_cases h4 : s = ","
          · subst h4; rfl
          · by_cases h5 : s = "no"
            · subst h5; rfl
            · rw [beq_eq_false_iff_ne.mpr h1, beq_eq_false_iff_ne.mpr h2,
                beq_eq_false_iff_ne.mpr h3, beq_eq_false_iff_ne.mpr h4,
                beq_eq_false_iff_ne.mpr h5]
              simp
  | intV n =>
    simp only [isIgnoredValue, ignoreValues, isIgnoredValueAux, goEq, goPanics, goEqRaw,
      goSentinel]
    by_cases h : n = 0
    · subst h; rfl
    · rw [beq_eq_false_iff_ne.mpr h]
      simp
  | nilV => rfl
  | restartPolicy s => rfl
  | boolV b => rfl
  | strList xs => rfl
  | strSliceV xs => rfl
  | strMap m => rfl
  | emptyIfaceList => simp [safeValue] at hv
  | emptyIfaceMap => simp [safeValue] at hv
  | ipamV d c => simp [safeValue] at hv

theorem dropIgnored_eq_filter (vals : List (String × GoValue))
    (h : ∀ kv ∈ vals, safeValue kv.2 = true) :
    dropIgnored vals = some (vals.filter (fun kv => !goSentinel kv.2)) := by
  induction vals with
  | nil => rfl
  | cons kv rest ih =>
    obtain ⟨k, v⟩ := kv
    have hv : safeValue v = true := h (k, v) (List.mem_cons_self _ _)
    have hrest := ih (fun kv hkv => h kv (List.mem_cons_of_mem _ hkv))
    simp only [dropIgnored, isIgnoredValue_eq_goSentinel v hv, hrest, Option.bind_eq_bind,
      Option.some_bind, List.filter_cons]
    cases hgs : goSentinel v <;> simp [hgs]

/-! ## Lexicographic string order

Go's `sort.Strings` sorts ascending by Go's byte-wise `<` on strings, which on
valid UTF-8 agrees with the code-point lexicographic order.  `lexLe` is an
executable form of that order; it is bridged to Mathlib's `≤` on `String`
below. -/

def lexLe : List Char → List Char → Bool
  | [], _ => true
  | _ :: _, [] => false
  | a :: as, b :: bs => if a < b then true else if b < a then false else lexLe as bs

def strLe (a b : String) : Bool := lexLe a.data b.data

theorem lexLe_cons_iff (a b : Char) (as bs : List Char) :
    lexLe (a :: as) (b :: bs) = true ↔ a < b ∨ (a = b ∧ lexLe as bs = true) := by
  simp only [lexLe]
  by_cases hab : a < b
  · simp [hab]
  · by_cases hba : b < a
    · simp [hab, hba, ne_of_gt hba]
    · have heq : a = b := le_antisymm (not_lt.mp hba) (not_lt.mp hab)
      simp [hab, heq]

theorem lexLe_total : ∀ x y : List Char, lexLe x y = true ∨ lexLe y x = true
  | [], _ => Or.inl rfl
  | _ :: _, [] => Or.inr rfl
  | a :: as, b :: bs => by
    rcases lt_trichotomy a b with h | h | h
    · exact Or.inl ((lexLe_cons_iff a b as bs).mpr (Or.inl h))
    · subst h
      rcases lexLe_total as bs with h' | h'
      · exact Or.inl ((lexLe_cons_iff a a as bs).mpr (Or.inr ⟨rfl, h'⟩))
      · exact Or.inr ((lexLe_cons_iff a a bs as).mpr (Or.inr ⟨rfl, h'⟩))
    · exact Or.inr ((lexLe_cons_iff b a bs as).mpr (Or.inl h))

theorem lexLe_trans : ∀ x y z : List Char,
    lexLe x y = true → lexLe y z = true → lexLe x z = true
  | [], _, _, _, _ => rfl
  | a :: as, [], z, hxy, _ => by simp [lexLe] at hxy
  | a :: as, b :: bs, [], _, hyz => by simp [lexLe] at hyz
  | a :: as, b :: bs, c :: cs, hxy, hyz => by
    rw [lexLe_cons_iff] at hxy hyz ⊢
    rcases hxy with hab | ⟨rfl, hxy'⟩
    · rcases hyz with hbc | ⟨rfl, _⟩
      · exact Or.inl (lt_trans hab hbc)
      · exact Or.inl hab
    · rcases hyz with hbc | ⟨rfl, hyz'⟩
      · exact Or.inl hbc
      · exact Or.inr ⟨rfl, lexLe_trans as bs cs hxy' hyz'⟩

theorem lexLe_iff_not_lt : ∀ x y : List Char, lexLe x y = true ↔ ¬ List.lt y x
  | [], [] => Iff.intro (fun _ h => by cases h) (fun _ => rfl)
  | [], b :: bs => Iff.intro (fun _ h => by cases h) (fun _ => rfl)
  | a :: as, [] => by
    simp only [lexLe, Bool.false_eq_true, false_iff, not_not]
    exact List.lt.nil a as
  | a :: as, b :: bs => by
    rw [lexLe_cons_iff]
    constructor
    · rintro (hab | ⟨rfl, h⟩) hlt
      · cases hlt with
        | head _ _ hba => exact absurd hab (asymm hba)
        | tail h1 h2 h3 => exact h2 hab
      · cases hlt with
        | head _ _ hba => exact lt_irrefl _ hba
        | tail h1 h2 h3 => exact ((lexLe_iff_not_lt as bs).mp h) h3
    · intro hnlt
      by_cases hab : a < b
      · exact Or.inl hab
      · by_cases hba : b < a
        · exact absurd (List.lt.head bs as hba) hnlt
        · have heq : a = b := le_antisymm (not_lt.mp hba) (not_lt.mp hab)
          subst heq
          refine Or.inr ⟨rfl, (lexLe_iff_not_lt as bs).mpr fun h3 => ?_⟩
          exact hnlt (List.lt.tail hba hab h3)

theorem strLe_iff_le (a b : String) : strLe a b = true ↔ a ≤ b := by
  rw [strLe, lexLe_iff_not_lt a.data b.data, ← not_lt]
  constructor
  · exact fun h hba =>
      h ((List.lt_iff_lex_lt b.data a.data).mpr (String.lt_iff_toList_lt.mp hba))
  · exact fun h hlt =>
      h (String.lt_iff_toList_lt.mpr ((List.lt_iff_lex_lt b.data a.data).mp hlt))

instance : IsTotal String (fun a b => strLe a b = true) :=
  ⟨fun a b => lexLe_total a.data b.data⟩

instance : IsTrans String (fun a b => strLe a b = true) :=
  ⟨fun a b c => lexLe_trans a.data b.data c.data⟩

/-! ## Data model

Shallow embedding of the Docker API records the generator reads, restricted to
the fields the source touches.  Go maps are association lists; Go map
iteration is iteration in list order. -/

structure Mount where
  type : String
  name : String
  source : String
  destination : String
  deriving Repr, DecidableEq

structure PortBinding where
  hostIP : String
  hostPort : String
  deriving Repr, DecidableEq

/-- The part of `types.ContainerJSON` the generator reads. `name` is
`cattrs.Name` (with its leading slash); `networkNames` are the keys of
`cattrs.NetworkSettings.Networks`; `restartPolicyName` is
`cattrs.HostConfig.RestartPolicy.Name` (dynamic type
`container.RestartPolicyMode`). -/
structure ContainerJSON where
  name : String
  image : String
  labels : List (String × String)
  env : List String
  cmd : List String
  entrypoint : List String
  workingDir : String
  user : String
  hostname : String
  domainname : String
  networkMode : String
  portBindings : List (String × List PortBinding)
  privileged : Bool
  restartPolicyName : String
  tty : Bool
  openStdin : Bool
  mounts : List Mount
  networkNames : List String
  deriving Repr, DecidableEq

/-- One element of the `cli.ContainerList` result: the fields the source
reads (`Names`, `ID`). -/
structure ContainerSummary where
  names : List String
  id : String
  deriving Repr, DecidableEq

structure NetworkSummary where
  name : String
  deriving Repr, DecidableEq

/-- The part of `types.NetworkResource` the generator reads. -/
structure NetworkResource where
  name : String
  scope : String
  driver : String
  enableIPv6 : Bool
  internal : Bool
  ipamDriver : String
  ipamConfig : List (String × String)
  deriving Repr, DecidableEq

/-- The external Docker client, modelled as a record of query results: the
same call always returns the same result (the runtime state is frozen for the
duration of one generation). -/
structure Client where
  listResult : Except String (List ContainerSummary)
  inspections : List (String × Except String ContainerJSON)
  networkListResult : Except String (List NetworkSummary)
  networkInspections : List (String × Except String NetworkResource)

/-- Model of `cli.ContainerInspect`, keyed by container ID; an ID absent from the model
fails with the daemon's NotFound error. -/
def Client.inspect (cli : Client) (id : String) : Except String ContainerJSON :=
  match cli.inspections.lookup id with
  | some r => r
  | none => .error ("No such container: " ++ id)

/-- Model of `cli.NetworkInspect`, keyed by network name. -/
def Client.networkInspect (cli : Client) (nm : String) : Except String NetworkResource :=
  match cli.networkInspections.lookup nm with
  | some r => r
  | none => .error ("network " ++ nm ++ " not found")

/-- Attribute mapping (`map[string]interface{}` in the source). -/
abbrev Attrs := List (String × GoValue)

/-- Go map update `m[k] = v` on the association-list model: overwrite in
place, append when fresh. -/
def mapInsert {α : Type} (k : String) (v : α) : List (String × α) → List (String × α)
  | [] => [(k, v)]
  | (k', v') :: rest => if k' = k then (k, v) :: rest else (k', v') :: mapInsert k v rest

/-- Go map read `m[k]` on the association-list model. -/
def mapLookup {α : Type} (k : String) : List (String × α) → Option α
  | [] => none
  | (k', v) :: rest => if k' = k then some v else mapLookup k rest

/-! ## Per-container extraction (composegen.go lines 176-221) -/

/-- The body of the mount loop in `generateVolumes`: the entry contributed by
one mount (`volume` is the zero value `""` when neither branch assigns it). -/
def mountEntry (m : Mount) (createVolumes : Bool) : String :=
  if m.type == "volume" && createVolumes then m.name ++ ":" ++ m.destination
  else if m.type == "bind" then m.source ++ ":" ++ m.destination
  else ""

/-- Embedding of `generateVolumes` (composegen.go lines 176-189): one entry per mount,
then `sort.Strings`. -/
def generateVolumes (cattrs : ContainerJSON) (createVolumes : Bool) : List String :=
  List.insertionSort (fun a b => strLe a b = true)
    (cattrs.mounts.map (fun m => mountEntry m createVolumes))

/-- Embedding of `getNetworkMode` (composegen.go lines 191-198): an implicit default mode
is replaced by the first attached network's name, if any. -/
def getNetworkMode (cattrs : ContainerJSON) : String :=
  if cattrs.networkMode == "default" then
    match cattrs.networkNames with
    | nm :: _ => nm
    | [] => cattrs.networkMode
  else cattrs.networkMode

/-- Embedding of `getPorts` (composegen.go lines 200-212). -/
def getPorts (cattrs : ContainerJSON) : List String :=
  (cattrs.portBindings.map (fun pb =>
    pb.2.map (fun b =>
      let hostPort := if b.hostIP ≠ "" then b.hostIP ++ ":" ++ b.hostPort else b.hostPort
      hostPort ++ ":" ++ pb.1))).flatten

/-- The `values` map built by `generate` (composegen.go lines 129-147), as a
key/value list; the Go dynamic type of each entry is recorded by the
`GoValue` constructor. -/
def containerValues (cattrs : ContainerJSON) (createVolumes : Bool) : List (String × GoValue) :=
  [("container_name", .str (cattrs.name.drop 1)),
   ("image", .str cattrs.image),
   ("labels", .strMap cattrs.labels),
   ("volumes", .strList (generateVolumes cattrs createVolumes)),
   ("environment", .strList cattrs.env),
   ("command", .strSliceV cattrs.cmd),
   ("entrypoint", .strSliceV cattrs.entrypoint),
   ("working_dir", .str cattrs.workingDir),
   ("user", .str cattrs.user),
   ("hostname", .str cattrs.hostname),
   ("domainname", .str cattrs.domainname),
   ("network_mode", .str (getNetworkMode cattrs)),
   ("ports", .strList (getPorts cattrs)),
   ("privileged", .boolV cattrs.privileged),
   ("restart", .restartPolicy cattrs.restartPolicyName),
   ("tty", .boolV cattrs.tty),
   ("stdin_open", .boolV cattrs.openStdin)]

/-- The `ct` map of `generate`: `values` with the ignored entries removed
(composegen.go lines 166-170); `none` models a Go panic. -/
def serviceAttrs (cattrs : ContainerJSON) (createVolumes : Bool) : Option Attrs :=
  dropIgnored (containerValues cattrs createVolumes)

/-! ## Regular expressions

Model of the external `regexp` standard-library collaborator
(`regexp.Compile` / `Regexp.MatchString`), covering the syntax fragment
relevant here: literals, `.`, `^`, `$`, character classes, grouping,
alternation, `*`, `+`, `?` and backslash escapes.  `MatchString` is
unanchored and case-sensitive: it reports whether a match exists anywhere in
the string; `^`/`$` match only at the start/end of the text. -/

inductive Regex where
  | emptyR
  | lit (c : Char)
  | dot
  | caret
  | dollar
  | cls (neg : Bool) (ranges : List (Char × Char))
  | cat (a b : Regex)
  | alt (a b : Regex)
  | star (a : Regex)
  deriving Repr, DecidableEq

def parseClassItems : Nat → List Char → Except String (List (Char × Char) × List Char)
  | 0, _ => .error "pattern too complex for the model"
  | _ + 1, [] => .error "missing closing ]"
  | _ + 1, ']' :: rest => .ok ([], rest)
  | _ + 1, c :: '-' :: ']' :: rest => .ok ([(c, c), ('-', '-')], rest)
  | fuel + 1, c :: '-' :: d :: rest => do
    let (items, rest2) ← parseClassItems fuel rest
    pure ((c, d) :: items, rest2)
  | fuel + 1, c :: rest => do
    let (items, rest2) ← parseClassItems fuel rest
    pure ((c, c) :: items, rest2)

mutual

def parseAlt : Nat → List Char → Except String (Regex × List Char)
  | 0, _ => .error "pattern too complex for the model"
  | fuel + 1, s => do
    let (r, rest) ← parseConcat fuel s
    match rest with
    | '|' :: rest2 => do
      let (r2, rest3) ← parseAlt fuel rest2
      pure (.alt r r2, rest3)
    | _ => pure (r, rest)

def parseConcat : Nat → List Char → Except String (Regex × List Char)
  | 0, _ => .error "pattern too complex for the model"
  | fuel + 1, s =>
    match s with
    | [] => pure (.emptyR, [])
    | ')' :: rest => pure (.emptyR, ')' :: rest)
    | '|' :: rest => pure (.emptyR, '|' :: rest)
    | s => do
      let (r, rest) ← parseRepeat fuel s
      let (r2, rest2) ← parseConcat fuel rest
      pure (.cat r r2, rest2)

def parseRepeat : Nat → List Char → Except String (Regex × List Char)
  | 0, _ => .error "pattern too complex for the model"
  | fuel + 1, s => do
    let (r, rest) ← parseAtom fuel s
    parseSuffixes fuel r rest

def parseSuffixes : Nat → Regex → List Char → Except String (Regex × List Char)
  | 0, _, _ => .error "pattern too complex for the model"
  | fuel + 1, r, s =>
    match s with
    | '*' :: rest => parseSuffixes fuel (.star r) rest
    | '+' :: rest => parseSuffixes fuel (.cat r (.star r)) rest
    | '?' :: rest => parseSuffixes fuel (.alt r .emptyR) rest
    | _ => pure (r, s)

def parseAtom : Nat → List Char → Except String (Regex × List Char)
  | 0, _ => .error "pattern too complex for the model"
  | fuel + 1, s =>
    match s with
    | [] => .error "missing operand"
    | '(' :: rest => do
      let (r, rest2) ← parseAlt fuel rest
      match rest2 with
      | ')' :: rest3 => pure (r, rest3)
      | _ => .error "missing closing )"
    | ')' :: _ => .error "unexpected )"
    | '|' :: _ => .error "unexpected |"
    | '*' :: _ => .error "missing argument to repetition operator"
    | '+' :: _ => .error "missing argument to repetition operator"
    | '?' :: _ => .error "missing argument to repetition operator"
    | '[' :: '^' :: rest => do
      let (items, rest2) ← parseClassItems fuel rest
      pure (.cls true items, rest2)
    | '[' :: rest => do
      let (items, rest2) ← parseClassItems fuel rest
      pure (.cls false items, rest2)
    | '.' :: rest => pure (.dot, rest)
    | '^' :: rest => pure (.caret, rest)
    | '$' :: rest => pure (.dollar, rest)
    | '\\' :: c :: rest => pure (.lit c, rest)
    | ['\\'] => .error "trailing backslash at end of expression"
    | c :: rest => pure (.lit c, rest)

end

/-- Model of `regexp.Compile`: parse the whole pattern, or fail. -/
def compile (pat : String) : Except String Regex := do
  let (r, rest) ← parseAlt (pat.length * 4 + 8) pat.data
  match rest with
  | [] => pure r
  | _ => .error "unexpected )"

def Regex.rsize : Regex → Nat
  | .emptyR => 1
  | .lit _ => 1
  | .dot => 1
  | .caret => 1
  | .dollar => 1
  | .cls _ _ => 1
  | .cat a b => a.rsize + b.rsize + 1
  | .alt a b => a.rsize + b.rsize + 1
  | .star a => a.rsize + 1

/-- Fueled continuation matcher: does `r` match some substring of `s`
beginning at position `i` whose end position satisfies `k`?  The star case
only recurses after strict progress, so the generous fuel below never runs
out on the concrete patterns considered. -/
def matchFrom : Nat → Regex → List Char → Nat → (Nat → Bool) → Bool
  | 0, _, _, _, _ => false
  | fuel + 1, r, s, i, k =>
    match r with
    | .emptyR => k i
    | .lit c =>
      match s.get? i with
      | some c' => c == c' && k (i + 1)
      | none => false
    | .dot =>
      match s.get? i with
      | some c' => c' != '\n' && k (i + 1)
      | none => false
    | .caret => i == 0 && k i
    | .dollar => i == s.length && k i
    | .cls neg ranges =>
      match s.get? i with
      | some c' => (neg != ranges.any (fun p => p.1 ≤ c' && c' ≤ p.2)) && k (i + 1)
      | none => false
    | .cat a b => matchFrom fuel a s i (fun j => matchFrom fuel b s j k)
    | .alt a b => matchFrom fuel a s i k || matchFrom fuel b s i k
    | .star a =>
      k i || matchFrom fuel a s i (fun j => decide (i < j) && matchFrom fuel (.star a) s j k)

def matchFuel (re : Regex) (s : List Char) : Nat :=
  (re.rsize + 1) * (s.length + 2) + 1

/-- Model of `Regexp.MatchString`: a match may begin at any position (unanchored). -/
def matchString (re : Regex) (s : String) : Bool :=
  (List.range (s.data.length + 1)).any
    (fun i => matchFrom (matchFuel re s.data) re s.data i (fun _ => true))

/-! ## The generation pipeline (composegen.go lines 25-173, 223-265) -/

/-- Display name `container.Names[0][1:]`: the runtime name with its leading slash
stripped (Docker always reports at least one name, of the form `/name`;
`headD ""` totalises the model). -/
def displayName (c : ContainerSummary) : String := (c.names.headD "").drop 1

/-- Embedding of `listContainerNames` (composegen.go lines 89-101). -/
def listContainerNames (cli : Client) : Except String (List String) :=
  match cli.listResult with
  | .error e => .error e
  | .ok cs => .ok (cs.map displayName)

/-- The filter step of `GenerateComposeFile` (composegen.go lines 31-44):
empty pattern keeps everything; a non-empty pattern is compiled and matched
against each display name; a compile failure fails the operation. -/
def effectiveNames (containerFilter : String) (names : List String) :
    Except String (List String) :=
  if containerFilter == "" then .ok names
  else
    match compile containerFilter with
    | .error e => .error ("invalid filter regex: " ++ e)
    | .ok re => .ok (names.filter (fun nm => matchString re nm))

/-- The per-container network-stub loop of `generate` (composegen.go lines
149-163): inspect each attached network; a failure is logged and the network
skipped. Returns the stub map and the log lines. -/
def buildStubs (cli : Client) (names : List String) :
    List (String × Attrs) × List String :=
  names.foldl
    (fun acc nm =>
      match cli.networkInspect nm with
      | .error e =>
        (acc.1, acc.2 ++ ["Error inspecting network " ++ nm ++ ": " ++ e])
      | .ok r =>
        (mapInsert nm [("external", GoValue.boolV (!r.internal)),
                       ("name", GoValue.str nm)] acc.1,
         acc.2))
    ([], [])

/-- Embedding of `generate` (composegen.go lines 103-174): re-list the containers, resolve
`cname` to the first container whose stripped display name or raw ID matches,
inspect it, and build the single-service map, the network stubs, and the
(always nil) volumes map.  Besides the result it returns the log lines and
the number of `ContainerInspect` calls made.  A Go panic in the ignore check
is modelled as an error result (provably unreachable). -/
def generate (cli : Client) (cname : String) (createVolumes : Bool) :
    Except String (List (String × Attrs) × List (String × Attrs) × List (String × Attrs))
      × List String × Nat :=
  match cli.listResult with
  | .error e => (.error e, [], 0)
  | .ok containers =>
    match containers.find? (fun c => displayName c == cname || c.id == cname) with
    | none => (.error ("container " ++ cname ++ " not found"), [], 0)
    | some c =>
      if c.id == "" then (.error ("container " ++ cname ++ " not found"), [], 0)
      else
        match cli.inspect c.id with
        | .error e => (.error e, [], 1)
        | .ok cattrs =>
          let stubs := buildStubs cli cattrs.networkNames
          match serviceAttrs cattrs createVolumes with
          | none => (.error "panic: runtime error: comparing uncomparable type", stubs.2, 1)
          | some ct => (.ok ([(cattrs.name.drop 1, ct)], stubs.1, []), stubs.2, 1)

/-- Embedding of `listNetworkNames` (composegen.go lines 223-234). -/
def listNetworkNames (cli : Client) : Except String (List String) :=
  match cli.networkListResult with
  | .error e => .error e
  | .ok ns => .ok (ns.map (·.name))

/-- The `values` map built for one network by `generateNetworkInfo`
(composegen.go lines 249-259). -/
def networkValues (r : NetworkResource) : Attrs :=
  [("name", .str r.name),
   ("scope", .str r.scope),
   ("driver", .str r.driver),
   ("enable_ipv6", .boolV r.enableIPv6),
   ("internal", .boolV r.internal),
   ("ipam", .ipamV r.ipamDriver r.ipamConfig)]

/-- The loop of `generateNetworkInfo`: any inspection failure aborts. -/
def generateNetworkInfoAux (cli : Client) :
    List (String × Attrs) → List String → Except String (List (String × Attrs))
  | acc, [] => .ok acc
  | acc, nm :: rest =>
    match cli.networkInspect nm with
    | .error e => .error e
    | .ok r => generateNetworkInfoAux cli (mapInsert nm (networkValues r) acc) rest

/-- Embedding of `generateNetworkInfo` (composegen.go lines 236-265). -/
def generateNetworkInfo (cli : Client) : Except String (List (String × Attrs)) :=
  match listNetworkNames cli with
  | .error e => .error e
  | .ok names => generateNetworkInfoAux cli [] names

/-- The `Config` document (composegen.go lines 18-23), before YAML
serialization (the serializer is the out-of-scope `yaml.Marshal`
collaborator; the claims below are about the document). -/
structure Config where
  version : String
  services : List (String × Attrs)
  networks : List (String × Attrs)
  volumes : List (String × Attrs)
  deriving Repr

/-- Accumulator of the main loop of `GenerateComposeFile` (composegen.go
lines 46-68), plus the observable log lines and inspection count. -/
structure GenState where
  services : List (String × Attrs)
  networks : List (String × Attrs)
  volumes : List (String × Attrs)
  logs : List String
  inspectCalls : Nat

def initState : GenState := ⟨[], [], [], [], 0⟩

/-- Go merge loop `for key, value := range src { dst[key] = value }`. -/
def mergeInto (dst : List (String × Attrs)) (src : List (String × Attrs)) :
    List (String × Attrs) :=
  src.foldl (fun acc kv => mapInsert kv.1 kv.2 acc) dst

/-- One iteration of the main loop: a `generate` failure is logged and the
container skipped; a success is merged into the three accumulator maps. -/
def processContainer (cli : Client) (createVolumes : Bool) (st : GenState)
    (cname : String) : GenState :=
  match generate cli cname createVolumes with
  | (.error e, glogs, n) =>
    { st with
      logs := st.logs ++ glogs ++
        ["Error generating config for container " ++ cname ++ ": " ++ e],
      inspectCalls := st.inspectCalls + n }
  | (.ok (cfile, cNetworks, cVolumes), glogs, n) =>
    { st with
      services := mergeInto st.services cfile,
      networks := mergeInto st.networks cNetworks,
      volumes := mergeInto st.volumes cVolumes,
      logs := st.logs ++ glogs,
      inspectCalls := st.inspectCalls + n }

/-- Embedding of `GenerateComposeFile` (composegen.go lines 25-87), returning the document
(`Config`), the log lines, and the number of `ContainerInspect` calls. -/
def GenerateComposeFile (cli : Client) (includeAllContainers : Bool)
    (containerFilter : String) (createVolumes : Bool) :
    Except String Config × List String × Nat :=
  match listContainerNames cli with
  | .error e => (.error e, [], 0)
  | .ok names =>
    match effectiveNames containerFilter names with
    | .error e => (.error e, [], 0)
    | .ok containerNames =>
      let st := containerNames.foldl (processContainer cli createVolumes) initState
      if includeAllContainers then
        match generateNetworkInfo cli with
        | .error e =>
          (.error ("error generating network info: " ++ e), st.logs, st.inspectCalls)
        | .ok hostNetworks =>
          (.ok ⟨"3.6", st.services, hostNetworks, st.volumes⟩, st.logs, st.inspectCalls)
      else
        (.ok ⟨"3.6", st.services, st.networks, st.volumes⟩, st.logs, st.inspectCalls)

/-! ## Helper lemmas -/

theorem generateVolumes_perm (c : ContainerJSON) (b : Bool) :
    (generateVolumes c b).Perm (c.mounts.map (fun m => mountEntry m b)) :=
  List.perm_insertionSort _ _

theorem generateVolumes_sorted (c : ContainerJSON) (b : Bool) :
    List.Sorted (· ≤ ·) (generateVolumes c b) :=
  (List.sorted_insertionSort (fun a b => strLe a b = true) _).imp
    (fun h => (strLe_iff_le _ _).mp h)

theorem colon_append_ne_empty (a b : String) : a ++ ":" ++ b ≠ "" := by
  intro h
  have hlen := congrArg String.length h
  rw [String.length_append, String.length_append] at hlen
  rw [show (":" : String).length = 1 from rfl, show ("" : String).length = 0 from rfl] at hlen
  omega

theorem mountEntry_eq_empty_iff (m : Mount) (b : Bool) :
    mountEntry m b = "" ↔ (!(m.type == "volume" && b) && !(m.type == "bind")) = true := by
  unfold mountEntry
  by_cases h1 : (m.type == "volume" && b) = true
  · simp [h1, colon_append_ne_empty]
  · rw [Bool.not_eq_true] at h1
    by_cases h2 : (m.type == "bind") = true
    · simp [h1, h2, colon_append_ne_empty]
    · rw [Bool.not_eq_true] at h2
      simp [h1, h2]

theorem empty_string_le (s : String) : ("" : String) ≤ s := by
  rw [← not_lt]
  intro hlt
  exact List.Lex.not_nil_right _ _ (String.lt_iff_toList_lt.mp hlt)

theorem le_empty_string (s : String) (h : s ≤ "") : s = "" :=
  le_antisymm h (empty_string_le s)

/-- In an ascending sorted list of strings, the empty-string entries form the
front of the list. -/
theorem sorted_empty_front (l : List String) (hs : List.Sorted (· ≤ ·) l) :
    l = List.replicate (l.count "") "" ++ l.filter (fun s => s != "") := by
  induction l with
  | nil => rfl
  | cons a t ih =>
    have ha : ∀ x ∈ t, a ≤ x := List.rel_of_sorted_cons hs
    have ht : List.Sorted (· ≤ ·) t := hs.of_cons
    by_cases hae : a = ""
    · subst hae
      rw [List.count_cons_self, List.replicate_succ]
      simpa using ih ht
    · have hnot : ("" : String) ∉ a :: t := by
        intro hmem
        rcases List.mem_cons.mp hmem with h | h
        · exact hae h.symm
        · exact hae (le_empty_string a (ha "" h))
      rw [List.count_eq_zero.mpr hnot, List.replicate_zero, List.nil_append]
      rw [List.filter_eq_self.mpr]
      intro x hx
      simp only [bne_iff_ne, ne_eq]
      intro hxe
      exact hnot (hxe ▸ hx)

theorem containerValues_safe (cattrs : ContainerJSON) (cv : Bool) :
    ∀ kv ∈ containerValues cattrs cv, safeValue kv.2 = true := by
  intro kv hkv
  simp only [containerValues, List.mem_cons, List.not_mem_nil, or_false] at hkv
  rcases hkv with rfl | rfl | rfl | rfl | rfl | rfl | rfl | rfl | rfl | rfl | rfl | rfl |
    rfl | rfl | rfl | rfl | rfl <;> rfl

/-! ## Example values used by witnesses and counterexamples -/

def trivialClient : Client := ⟨.ok [], [], .ok [], []⟩

def emptyContainer : ContainerJSON where
  name := "/c1"
  image := ""
  labels := []
  env := []
  cmd := []
  entrypoint := []
  workingDir := ""
  user := ""
  hostname := ""
  domainname := ""
  networkMode := ""
  portBindings := []
  privileged := false
  restartPolicyName := ""
  tty := false
  openStdin := false
  mounts := []
  networkNames := []

def volMount : Mount := ⟨"volume", "v", "", "/data"⟩

def bindMount : Mount := ⟨"bind", "", "/host", "/data"⟩

def mountedContainer : ContainerJSON :=
  { emptyContainer with mounts := [volMount, bindMount] }

/-! ## Claim C1 -/

/-- C1 counterexample: the claim "a key is present iff its value does not
deep-equal one of the nine sentinels" is false on the code.  For the
mountless `emptyContainer`, the value of `"volumes"` is the empty `[]string`,
which deep-equals the empty-list sentinel, yet the key is present in the
emitted record: Go interface equality compares dynamic types first, and
`[]string` is never `[]interface{}`. -/
theorem sentinel_deep_equality_refuted :
    deepEqualSentinel (GoValue.strList []) = true ∧
    ("volumes", GoValue.strList []) ∈ containerValues emptyContainer false ∧
    ∃ ct, serviceAttrs emptyContainer false = some ct ∧
      ("volumes", GoValue.strList []) ∈ ct := by
  refine ⟨rfl, by decide, ?_⟩
  refine ⟨[("container_name", GoValue.str "c1"),
    ("labels", GoValue.strMap []),
    ("volumes", GoValue.strList []),
    ("environment", GoValue.strList []),
    ("command", GoValue.strSliceV []),
    ("entrypoint", GoValue.strSliceV []),
    ("ports", GoValue.strList []),
    ("privileged", GoValue.boolV false),
    ("restart", GoValue.restartPolicy ""),
    ("tty", GoValue.boolV false),
    ("stdin_open", GoValue.boolV false)], by decide, by decide⟩

/-- C1 (amended): a key built by the normalizer is present in the emitted
record iff its value is not Go-`==`-equal to an entry of `ignoreValues`; the
check never panics, and the only values so dropped are plain strings equal to
one of `""`, `"null"`, `"default"`, `","`, `"no"` (plus a hypothetical
untyped nil or `int` 0, which the normalizer never produces): slice-, map-,
bool- and `RestartPolicyMode`-typed values are always kept, however empty.
When present, a key maps to its original value unchanged. -/
theorem attrs_present_iff_goValue_sentinel (cattrs : ContainerJSON) (cv : Bool) :
    ∃ ct, serviceAttrs cattrs cv = some ct ∧
      (∀ k v, (k, v) ∈ containerValues cattrs cv →
        ((k, v) ∈ ct ↔ goSentinel v = false)) ∧
      (∀ k v, (k, v) ∈ ct → (k, v) ∈ containerValues cattrs cv) := by
  refine ⟨(containerValues cattrs cv).filter (fun kv => !goSentinel kv.2),
    dropIgnored_eq_filter _ (containerValues_safe cattrs cv), ?_, ?_⟩
  · intro k v hkv
    rw [List.mem_filter]
    constructor
    · intro hmem
      have := hmem.2
      simpa using this
    · intro hfalse
      exact ⟨hkv, by simpa using hfalse⟩
  · intro k v hkv
    exact (List.mem_filter.mp hkv).1

/-! ## Claim C2 -/

/-- C2: a `volume`-type mount contributes exactly `name:destination` when
`createVolumes` is enabled and the empty entry when it is disabled; a
`bind`-type mount's entry does not depend on the flag; and a mount's entry is
an element of the generated (sorted) list. -/
theorem volume_entry_flag_spec (m : Mount) (c : ContainerJSON) (b : Bool)
    (hm : m.type = "volume") :
    mountEntry m true = m.name ++ ":" ++ m.destination ∧
    mountEntry m false = "" ∧
    (∀ m' : Mount, m'.type = "bind" → mountEntry m' true = mountEntry m' false) ∧
    (m ∈ c.mounts → mountEntry m b ∈ generateVolumes c b) := by
  refine ⟨by simp [mountEntry, hm], by simp [mountEntry, hm], ?_, fun hmem => ?_⟩
  · intro m' hm'
    simp [mountEntry, hm']
  · exact ((generateVolumes_perm c b).mem_iff).mpr (List.mem_map_of_mem _ hmem)

theorem volume_entry_flag_spec_witness :
    volMount.type = "volume" ∧
    mountEntry volMount true = "v:/data" ∧ mountEntry volMount false = "" := by
  have h := volume_entry_flag_spec volMount mountedContainer true rfl
  exact ⟨rfl, h.1, h.2.1⟩

/-! ## Claim C3 -/

/-- C3: a `bind`-type mount contributes exactly `source:destination`
regardless of the `createVolumes` flag, and the per-container entry list is
lexicographically sorted; a bind mount's entry is an element of the
generated list. -/
theorem bind_entry_and_sorted (m : Mount) (c : ContainerJSON) (b : Bool)
    (hm : m.type = "bind") :
    mountEntry m b = m.source ++ ":" ++ m.destination ∧
    List.Sorted (· ≤ ·) (generateVolumes c b) ∧
    (m ∈ c.mounts → m.source ++ ":" ++ m.destination ∈ generateVolumes c b) := by
  have he : mountEntry m b = m.source ++ ":" ++ m.destination := by
    simp [mountEntry, hm]
  refine ⟨he, generateVolumes_sorted c b, fun hmem => ?_⟩
  rw [← he]
  exact ((generateVolumes_perm c b).mem_iff).mpr (List.mem_map_of_mem _ hmem)

theorem bind_entry_and_sorted_witness :
    bindMount.type = "bind" ∧
    mountEntry bindMount true = "/host:/data" ∧
    mountEntry bindMount false = "/host:/data" :=
  ⟨rfl, (bind_entry_and_sorted bindMount mountedContainer true rfl).1,
    (bind_entry_and_sorted bindMount mountedContainer false rfl).1⟩

/-! ## Claim C9 -/

/-- C9: `generateVolumes` yields exactly one entry per mount; mounts of a
type other than `volume`/`bind`, and `volume` mounts with the flag disabled,
contribute the empty-string entry (they are not skipped); after sorting, the
empty entries form the front of the list. -/
theorem one_entry_per_mount (c : ContainerJSON) (b : Bool) :
    (generateVolumes c b).length = c.mounts.length ∧
    (generateVolumes c b).count "" =
      (c.mounts.filter
        (fun m => !(m.type == "volume" && b) && !(m.type == "bind"))).length ∧
    generateVolumes c b =
      List.replicate ((generateVolumes c b).count "") "" ++
        (generateVolumes c b).filter (fun s => s != "") := by
  refine ⟨?_, ?_, sorted_empty_front _ (generateVolumes_sorted c b)⟩
  · exact ((generateVolumes_perm c b).length_eq).trans (List.length_map _ _)
  · rw [(generateVolumes_perm c b).count_eq]
    show List.countP (fun x => x == "") _ = _
    rw [List.countP_map, List.countP_eq_length_filter]
    congr 1
    apply List.filter_congr
    intro m _
    show (mountEntry m b == "") = _
    rcases hb : (!(m.type == "volume" && b) && !(m.type == "bind")) with _ | _
    · rw [beq_eq_false_iff_ne]
      intro hcontra
      rw [(mountEntry_eq_empty_iff m b).mp hcontra] at hb
      cases hb
    · exact beq_iff_eq.mpr ((mountEntry_eq_empty_iff m b).mpr hb)

/-! ## Claim C10 -/

/-- C10: whenever `GenerateComposeFile` succeeds, the version field of the
emitted document is exactly `"3.6"`. -/
theorem version_is_3_6 (cli : Client) (ia : Bool) (pat : String) (cv : Bool)
    (config : Config) (logs : List String) (n : Nat)
    (h : GenerateComposeFile cli ia pat cv = (.ok config, logs, n)) :
    config.version = "3.6" := by
  unfold GenerateComposeFile at h
  split at h
  · simp at h
  · split at h
    · simp at h
    · split at h
      · split at h
        · simp at h
        · rw [Prod.mk.injEq] at h
          cases Except.ok.inj h.1
          rfl
      · rw [Prod.mk.injEq] at h
        cases Except.ok.inj h.1
        rfl

theorem version_is_3_6_witness :
    GenerateComposeFile trivialClient false "" false = (.ok ⟨"3.6", [], [], []⟩, [], 0) ∧
    (⟨"3.6", [], [], []⟩ : Config).version = "3.6" :=
  ⟨rfl, version_is_3_6 trivialClient false "" false ⟨"3.6", [], [], []⟩ [] 0 rfl⟩

/-! ## Claim C4 -/

/-- C4: a non-empty filter pattern that fails to compile fails the whole
operation with the invalid-filter error; no container inspection is
performed, nothing is logged, and no fallback processing happens. -/
theorem invalid_filter_aborts (cli : Client) (cs : List ContainerSummary)
    (ia cv : Bool) (pat e : String) (hlist : cli.listResult = .ok cs)
    (hpat : pat ≠ "") (hbad : compile pat = .error e) :
    GenerateComposeFile cli ia pat cv =
      (.error ("invalid filter regex: " ++ e), [], 0) := by
  unfold GenerateComposeFile listContainerNames effectiveNames
  rw [hlist, beq_eq_false_iff_ne.mpr hpat, hbad]
  rfl

theorem invalid_filter_aborts_witness :
    ("(" : String) ≠ "" ∧ compile "(" = .error "missing closing )" ∧
    GenerateComposeFile trivialClient false "(" false =
      (.error "invalid filter regex: missing closing )", [], 0) :=
  ⟨by decide, rfl,
    invalid_filter_aborts trivialClient [] false false "(" "missing closing )"
      rfl (by decide) rfl⟩

/-! ## Claim C7 -/

/-- C7: with a non-empty pattern that compiles, the inclusion set is exactly
the display names on which `MatchString` succeeds; `MatchString` is
unanchored (a match may begin at any position of the string); and on the
names `web1`, `web2`, `db1` the pattern `^web` keeps exactly `web1` and
`web2`. -/
theorem filter_inclusion_set (pat : String) (names : List String) (s : String)
    (re : Regex) (hpat : pat ≠ "") (hre : compile pat = .ok re) :
    effectiveNames pat names = .ok (names.filter (fun nm => matchString re nm)) ∧
    (matchString re s = true ↔
      ∃ i, i ≤ s.data.length ∧
        matchFrom (matchFuel re s.data) re s.data i (fun _ => true) = true) ∧
    effectiveNames "^web" ["web1", "web2", "db1"] = .ok ["web1", "web2"] := by
  refine ⟨?_, ?_, rfl⟩
  · unfold effectiveNames
    rw [beq_eq_false_iff_ne.mpr hpat, hre]
    rfl
  · unfold matchString
    rw [List.any_eq_true]
    constructor
    · rintro ⟨i, hi, hf⟩
      exact ⟨i, Nat.lt_succ_iff.mp (List.mem_range.mp hi), hf⟩
    · rintro ⟨i, hi, hf⟩
      exact ⟨i, List.mem_range.mpr (Nat.lt_succ_iff.mpr hi), hf⟩

theorem filter_inclusion_set_witness :
    ("^web" : String) ≠ "" ∧
    compile "^web" =
      .ok (.cat .caret (.cat (.lit 'w') (.cat (.lit 'e') (.cat (.lit 'b') .emptyR)))) ∧
    effectiveNames "^web" ["web1", "web2", "db1"] = .ok ["web1", "web2"] :=
  ⟨by decide, rfl,
    (filter_inclusion_set "^web" ["web1", "web2", "db1"] ""
      (.cat .caret (.cat (.lit 'w') (.cat (.lit 'e') (.cat (.lit 'b') .emptyR))))
      (by decide) rfl).2.2⟩

/-! ## Consistent clients

`generate` re-lists the containers and resolves the caller-supplied name
against display names and raw IDs.  The lemmas about the batch loop assume a
client that behaves like a real Docker daemon: listing is stable, every
summary carries a `/name`, display names are unique, IDs are non-empty and
collide with no display name, and inspecting a listed container reports the
same name the summary carried. -/

structure ConsistentClient (cli : Client) (cs : List ContainerSummary) : Prop where
  list_ok : cli.listResult = .ok cs
  display_distinct : cs.Pairwise (fun a b => displayName a ≠ displayName b)
  id_ne_display : ∀ c ∈ cs, ∀ c' ∈ cs, c.id ≠ displayName c'
  id_nonempty : ∀ c ∈ cs, c.id ≠ ""
  inspect_name : ∀ c ∈ cs, ∀ r, cli.inspect c.id = .ok r → r.name = c.names.headD ""

/-- Did inspecting this summary's ID succeed? -/
def inspectionOk (cli : Client) (c : ContainerSummary) : Bool :=
  (cli.inspect c.id).isOk

/-- The service record the batch loop obtains for a summary whose inspection
succeeds (unused default on failure). -/
def svcAttrsOf (cli : Client) (cv : Bool) (c : ContainerSummary) : Attrs :=
  match cli.inspect c.id with
  | .ok r => (containerValues r cv).filter (fun kv => !goSentinel kv.2)
  | .error _ => []

/-- The log lines the batch loop emits for one summary. -/
def logsOf (cli : Client) (c : ContainerSummary) : List String :=
  match cli.inspect c.id with
  | .ok r => (buildStubs cli r.networkNames).2
  | .error e => ["Error generating config for container " ++ displayName c ++ ": " ++ e]

theorem find_resolves (cs : List ContainerSummary) (c : ContainerSummary)
    (hdist : cs.Pairwise (fun a b => displayName a ≠ displayName b))
    (hid : ∀ x ∈ cs, x.id ≠ displayName c) (hmem : c ∈ cs) :
    cs.find? (fun x => displayName x == displayName c || x.id == displayName c) =
      some c := by
  induction cs with
  | nil => cases hmem
  | cons a t ih =>
    rcases List.mem_cons.mp hmem with rfl | hmem'
    · apply List.find?_cons_of_pos
      simp
    · have hpw := List.pairwise_cons.mp hdist
      have hane : displayName a ≠ displayName c := hpw.1 c hmem'
      have haid : a.id ≠ displayName c := hid a (List.mem_cons_self a t)
      rw [List.find?_cons_of_neg]
      · exact ih hpw.2 (fun x hx => hid x (List.mem_cons_of_mem a hx)) hmem'
      · simp [hane, haid]

theorem generate_ok_shape (cli : Client) (cs : List ContainerSummary)
    (hc : ConsistentClient cli cs) (c : ContainerSummary) (hmem : c ∈ cs)
    (r : ContainerJSON) (hr : cli.inspect c.id = .ok r) (cv : Bool) :
    generate cli (displayName c) cv =
      (.ok ([(displayName c, svcAttrsOf cli cv c)],
        (buildStubs cli r.networkNames).1, []),
       (buildStubs cli r.networkNames).2, 1) := by
  have hfind := find_resolves cs c hc.display_distinct
    (fun x hx => hc.id_ne_display x hx c hmem) hmem
  have hkey : r.name.drop 1 = displayName c := by
    rw [hc.inspect_name c hmem r hr]
    rfl
  have hattrs : serviceAttrs r cv =
      some ((containerValues r cv).filter (fun kv => !goSentinel kv.2)) :=
    dropIgnored_eq_filter _ (containerValues_safe r cv)
  unfold generate
  simp only [hc.list_ok, hfind, beq_eq_false_iff_ne.mpr (hc.id_nonempty c hmem),
    hr, hattrs, hkey, Bool.false_eq_true, if_false]
  simp [svcAttrsOf, hr]

theorem generate_err_shape (cli : Client) (cs : List ContainerSummary)
    (hc : ConsistentClient cli cs) (c : ContainerSummary) (hmem : c ∈ cs)
    (e : String) (hr : cli.inspect c.id = .error e) (cv : Bool) :
    generate cli (displayName c) cv = (.error e, [], 1) := by
  have hfind := find_resolves cs c hc.display_distinct
    (fun x hx => hc.id_ne_display x hx c hmem) hmem
  unfold generate
  simp only [hc.list_ok, hfind, beq_eq_false_iff_ne.mpr (hc.id_nonempty c hmem),
    hr, Bool.false_eq_true, if_false]

theorem mapLookup_mapInsert {α : Type} (k k' : String) (v : α)
    (m : List (String × α)) :
    mapLookup k (mapInsert k' v m) = if k' = k then some v else mapLookup k m := by
  induction m with
  | nil =>
    unfold mapInsert mapLookup
    split <;> simp_all [mapLookup]
  | cons a t ih =>
    obtain ⟨ka, va⟩ := a
    unfold mapInsert
    by_cases hka : ka = k'
    · subst hka
      simp only [if_pos rfl]
      unfold mapLookup
      split <;> simp_all
    · rw [if_neg hka]
      unfold mapLookup
      by_cases hk : ka = k
      · subst hk
        have : ¬ k' = ka := fun h => hka h.symm
        simp [this]
      · simp only [if_neg hk]
        exact ih

theorem mapInsert_fresh {α : Type} (k : String) (v : α) (m : List (String × α))
    (hk : k ∉ m.map Prod.fst) :
    mapInsert k v m = m ++ [(k, v)] := by
  induction m with
  | nil => rfl
  | cons a t ih =>
    obtain ⟨ka, va⟩ := a
    have hkt : k ∉ t.map Prod.fst := fun h =>
      hk (by rw [List.map_cons]; exact List.mem_cons_of_mem _ h)
    have hne : ka ≠ k := fun h =>
      hk (by rw [List.map_cons, h]; exact List.mem_cons_self _ _)
    unfold mapInsert
    rw [if_neg hne, ih hkt]
    rfl

/-- Effect of the main loop on the services map and the log, processing a
pairwise-distinct batch of listed containers: each summary whose inspection
succeeds appends exactly one service keyed by its display name; each failure
appends exactly one log line and no service. -/
theorem fold_services_logs (cli : Client) (cs : List ContainerSummary)
    (hc : ConsistentClient cli cs) (cv : Bool) :
    ∀ (sub : List ContainerSummary) (st : GenState),
      (∀ c ∈ sub, c ∈ cs) →
      sub.Pairwise (fun a b => displayName a ≠ displayName b) →
      (∀ c ∈ sub, displayName c ∉ st.services.map Prod.fst) →
      (List.foldl (processContainer cli cv) st (sub.map displayName)).services =
          st.services ++
            (sub.filter (fun c => inspectionOk cli c)).map
              (fun c => (displayName c, svcAttrsOf cli cv c)) ∧
      (List.foldl (processContainer cli cv) st (sub.map displayName)).logs =
          st.logs ++ (sub.map (fun c => logsOf cli c)).flatten := by
  intro sub
  induction sub with
  | nil =>
    intro st _ _ _
    simp
  | cons c t ih =>
    intro st hmem hpw hfresh
    have hcmem : c ∈ cs := hmem c (List.mem_cons_self c t)
    have hpw' := List.pairwise_cons.mp hpw
    rw [List.map_cons, List.foldl_cons]
    cases hinsp : cli.inspect c.id with
    | error e =>
      have hgen := generate_err_shape cli cs hc c hcmem e hinsp cv
      have hstep : processContainer cli cv st (displayName c) =
          { st with
            logs := st.logs ++
              ["Error generating config for container " ++ displayName c ++ ": " ++ e],
            inspectCalls := st.inspectCalls + 1 } := by
        unfold processContainer
        rw [hgen]
        simp
      rw [hstep]
      obtain ⟨hs, hl⟩ := ih
        { st with
          logs := st.logs ++
            ["Error generating config for container " ++ displayName c ++ ": " ++ e],
          inspectCalls := st.inspectCalls + 1 }
        (fun x hx => hmem x (List.mem_cons_of_mem c hx)) hpw'.2
        (fun x hx => hfresh x (List.mem_cons_of_mem c hx))
      have hiok : inspectionOk cli c = false := by
        unfold inspectionOk
        rw [hinsp]
        rfl
      constructor
      · rw [hs, List.filter_cons_of_neg]
        simp [hiok]
      · rw [hl]
        simp [logsOf, hinsp, List.append_assoc]
    | ok r =>
      have hgen := generate_ok_shape cli cs hc c hcmem r hinsp cv
      have hmerge : mergeInto st.services [(displayName c, svcAttrsOf cli cv c)] =
          st.services ++ [(displayName c, svcAttrsOf cli cv c)] :=
        mapInsert_fresh _ _ _ (hfresh c (List.mem_cons_self c t))
      have hstep : processContainer cli cv st (displayName c) =
          { st with
            services := st.services ++ [(displayName c, svcAttrsOf cli cv c)],
            networks := mergeInto st.networks (buildStubs cli r.networkNames).1,
            volumes := mergeInto st.volumes [],
            logs := st.logs ++ (buildStubs cli r.networkNames).2,
            inspectCalls := st.inspectCalls + 1 } := by
        unfold processContainer
        rw [hgen, ← hmerge]
      rw [hstep]
      have hfr : ∀ x ∈ t, displayName x ∉
          (st.services ++ [(displayName c, svcAttrsOf cli cv c)]).map Prod.fst := by
        intro x hx
        simp only [List.map_append, List.mem_append]
        rintro (h1 | h2)
        · exact hfresh x (List.mem_cons_of_mem c hx) h1
        · have hxc : displayName x = displayName c := by
            simpa using h2
          exact hpw'.1 x hx hxc.symm
      obtain ⟨hs, hl⟩ := ih
        { st with
          services := st.services ++ [(displayName c, svcAttrsOf cli cv c)],
          networks := mergeInto st.networks (buildStubs cli r.networkNames).1,
          volumes := mergeInto st.volumes [],
          logs := st.logs ++ (buildStubs cli r.networkNames).2,
          inspectCalls := st.inspectCalls + 1 }
        (fun x hx => hmem x (List.mem_cons_of_mem c hx)) hpw'.2 hfr
      have hiok : inspectionOk cli c = true := by
        unfold inspectionOk
        rw [hinsp]
        rfl
      constructor
      · rw [hs, List.filter_cons_of_pos]
        · simp [List.append_assoc]
        · simp [hiok]
      · rw [hl]
        simp [logsOf, hinsp, List.append_assoc]

theorem display_inj (cs : List ContainerSummary)
    (hdist : cs.Pairwise (fun a b => displayName a ≠ displayName b)) :
    ∀ a ∈ cs, ∀ b ∈ cs, displayName a = displayName b → a = b := by
  induction cs with
  | nil => intro a ha; cases ha
  | cons x t ih =>
    have hpw := List.pairwise_cons.mp hdist
    intro a ha b hb heq
    rcases List.mem_cons.mp ha with rfl | ha' <;> rcases List.mem_cons.mp hb with rfl | hb'
    · rfl
    · exact absurd heq (hpw.1 b hb')
    · exact absurd heq.symm (hpw.1 a ha')
    · exact ih hpw.2 a ha' b hb' heq

/-- The main loop of a run whose filter step produced `names'` processes
exactly the listed containers whose display name is in `names'`, in list
order. -/
theorem run_core (cli : Client) (cs : List ContainerSummary)
    (hc : ConsistentClient cli cs) (cv : Bool) (pat : String) (names' : List String)
    (hnames : effectiveNames pat (cs.map displayName) = .ok names') :
    ∃ sub : List ContainerSummary,
      sub = cs.filter (fun c => decide (displayName c ∈ names')) ∧
      names' = sub.map displayName ∧
      (List.foldl (processContainer cli cv) initState names').services =
        (sub.filter (fun c => inspectionOk cli c)).map
          (fun c => (displayName c, svcAttrsOf cli cv c)) ∧
      (List.foldl (processContainer cli cv) initState names').logs =
        (sub.map (fun c => logsOf cli c)).flatten := by
  unfold effectiveNames at hnames
  have hfold := fold_services_logs cli cs hc cv
  by_cases hp : (pat == "") = true
  · rw [if_pos hp] at hnames
    have hn : names' = cs.map displayName := (Except.ok.inj hnames).symm
    subst hn
    obtain ⟨hs, hl⟩ := hfold cs initState (fun c h => h) hc.display_distinct
      (by intro c h; simp [initState])
    refine ⟨cs, ?_, rfl, ?_, ?_⟩
    · symm
      rw [List.filter_eq_self]
      intro c hcm
      rw [decide_eq_true_eq]
      exact List.mem_map_of_mem displayName hcm
    · simpa [initState] using hs
    · simpa [initState] using hl
  · rw [if_neg hp] at hnames
    cases hcomp : compile pat with
    | error e =>
      rw [hcomp] at hnames
      cases hnames
    | ok re =>
      rw [hcomp] at hnames
      have hn : names' = (cs.map displayName).filter (fun nm => matchString re nm) :=
        (Except.ok.inj hnames).symm
      subst hn
      have hneq : (cs.map displayName).filter (fun nm => matchString re nm) =
          (cs.filter (fun c => matchString re (displayName c))).map displayName := by
        rw [List.filter_map]
        rfl
      have hsub : List.Sublist (cs.filter (fun c => matchString re (displayName c))) cs :=
        List.filter_sublist cs
      obtain ⟨hs, hl⟩ := hfold (cs.filter (fun c => matchString re (displayName c)))
        initState (fun c h => List.mem_of_mem_filter h)
        (hc.display_distinct.sublist hsub)
        (by intro c h; simp [initState])
      refine ⟨cs.filter (fun c => matchString re (displayName c)), ?_, hneq, ?_, ?_⟩
      · apply List.filter_congr
        intro c hcm
        cases hm : matchString re (displayName c) with
        | true =>
          symm
          rw [decide_eq_true_eq]
          exact List.mem_filter.mpr ⟨List.mem_map_of_mem _ hcm, hm⟩
        | false =>
          symm
          rw [decide_eq_false_iff_not]
          intro hmem
          have := (List.mem_filter.mp hmem).2
          rw [hm] at this
          cases this
      · rw [hneq]
        simpa [initState] using hs
      · rw [hneq]
        simpa [initState] using hl

/-! ## Claim C8 -/

/-- C8: for a client that behaves like a real daemon, whenever
`GenerateComposeFile` succeeds the keys of the services map are exactly the
stripped display names of the listed containers that survived the filter step
(`names'`) and were successfully inspected; containers failing inspection
contribute no key. -/
theorem services_keys_exact (cli : Client) (cs : List ContainerSummary)
    (hc : ConsistentClient cli cs) (ia cv : Bool) (pat : String)
    (names' : List String) (config : Config) (logs : List String) (n : Nat)
    (hnames : effectiveNames pat (cs.map displayName) = .ok names')
    (hrun : GenerateComposeFile cli ia pat cv = (.ok config, logs, n)) :
    config.services.map Prod.fst =
      (cs.filter (fun c =>
        decide (displayName c ∈ names') && inspectionOk cli c)).map displayName := by
  obtain ⟨sub, hsub, hneq, hserv, _⟩ := run_core cli cs hc cv pat names' hnames
  have hgoal : ∀ st : GenState,
      st = List.foldl (processContainer cli cv) initState names' →
      st.services.map Prod.fst =
        (cs.filter (fun c =>
          decide (displayName c ∈ names') && inspectionOk cli c)).map displayName := by
    intro st hst
    rw [hst, hserv, List.map_map, hsub, List.filter_filter]
    have hcg : ∀ c ∈ cs,
        (inspectionOk cli c && decide (displayName c ∈ names')) =
          (decide (displayName c ∈ names') && inspectionOk cli c) :=
      fun c _ => Bool.and_comm _ _
    rw [List.filter_congr hcg]
    rfl
  unfold GenerateComposeFile listContainerNames at hrun
  simp only [hc.list_ok, hnames] at hrun
  by_cases hia : ia = true
  · rw [if_pos hia] at hrun
    cases hnet : generateNetworkInfo cli with
    | error e =>
      rw [hnet] at hrun
      simp at hrun
    | ok m =>
      rw [hnet] at hrun
      rw [Prod.mk.injEq] at hrun
      cases Except.ok.inj hrun.1
      exact hgoal _ rfl
  · rw [if_neg hia] at hrun
    rw [Prod.mk.injEq] at hrun
    cases Except.ok.inj hrun.1
    exact hgoal _ rfl

/-! ## Claim C6 -/

/-- C6: a failure to inspect one container of the batch is logged and that
container is skipped: the run still succeeds, every other successfully
inspected container that survived the filter appears in the services map, the
failing container contributes no key, and its failure is visible in the log
lines. -/
theorem inspection_failure_skipped (cli : Client) (cs : List ContainerSummary)
    (hc : ConsistentClient cli cs) (cv : Bool) (pat : String)
    (names' : List String) (cf : ContainerSummary) (e : String)
    (hnames : effectiveNames pat (cs.map displayName) = .ok names')
    (hcf : cf ∈ cs) (hfail : cli.inspect cf.id = .error e) :
    ∃ config logs n,
      GenerateComposeFile cli false pat cv = (.ok config, logs, n) ∧
      (∀ c ∈ cs, displayName c ∈ names' → inspectionOk cli c = true →
        displayName c ∈ config.services.map Prod.fst) ∧
      (displayName cf ∈ names' →
        ("Error generating config for container " ++ displayName cf ++ ": " ++ e)
          ∈ logs) ∧
      displayName cf ∉ config.services.map Prod.fst := by
  obtain ⟨sub, hsub, hneq, hserv, hlogs⟩ := run_core cli cs hc cv pat names' hnames
  have hrun : GenerateComposeFile cli false pat cv =
      (.ok ⟨"3.6",
        (List.foldl (processContainer cli cv) initState names').services,
        (List.foldl (processContainer cli cv) initState names').networks,
        (List.foldl (processContainer cli cv) initState names').volumes⟩,
       (List.foldl (processContainer cli cv) initState names').logs,
       (List.foldl (processContainer cli cv) initState names').inspectCalls) := by
    unfold GenerateComposeFile listContainerNames
    simp only [hc.list_ok, hnames]
    rw [if_neg (by simp)]
  refine ⟨_, _, _, hrun, ?_, ?_, ?_⟩
  · intro c hcm hcn hiok
    show displayName c ∈
      ((List.foldl (processContainer cli cv) initState names').services).map Prod.fst
    rw [hserv, List.map_map]
    have : c ∈ sub.filter (fun c => inspectionOk cli c) := by
      rw [hsub]
      exact List.mem_filter.mpr
        ⟨List.mem_filter.mpr ⟨hcm, decide_eq_true hcn⟩, hiok⟩
    exact List.mem_map_of_mem _ this
  · intro hcn
    show _ ∈ (List.foldl (processContainer cli cv) initState names').logs
    rw [hlogs]
    rw [List.mem_flatten]
    refine ⟨logsOf cli cf, ?_, ?_⟩
    · apply List.mem_map_of_mem
      rw [hsub]
      exact List.mem_filter.mpr ⟨hcf, decide_eq_true hcn⟩
    · unfold logsOf
      rw [hfail]
      exact List.mem_singleton.mpr rfl
  · intro hmem
    rw [show (⟨"3.6", _, _, _⟩ : Config).services =
      (List.foldl (processContainer cli cv) initState names').services from rfl,
      hserv, List.map_map] at hmem
    obtain ⟨c', hc', hdc⟩ := List.mem_map.mp hmem
    have hc'sub : c' ∈ sub := List.mem_of_mem_filter hc'
    have hc'cs : c' ∈ cs := by
      rw [hsub] at hc'sub
      exact List.mem_of_mem_filter hc'sub
    have hceq : c' = cf := display_inj cs hc.display_distinct c' hc'cs cf hcf hdc
    have hiok := (List.mem_filter.mp hc').2
    rw [hceq] at hiok
    unfold inspectionOk at hiok
    rw [hfail] at hiok
    cases hiok

/-! ## Host-wide network export -/

theorem mapLookup_isSome_iff {α : Type} (k : String) (m : List (String × α)) :
    (mapLookup k m).isSome = true ↔ k ∈ m.map Prod.fst := by
  induction m with
  | nil => simp [mapLookup]
  | cons a t ih =>
    obtain ⟨ka, va⟩ := a
    unfold mapLookup
    by_cases hka : ka = k
    · subst hka
      simp
    · rw [if_neg hka, List.map_cons]
      rw [List.mem_cons]
      constructor
      · intro h
        exact Or.inr (ih.mp h)
      · rintro (h | h)
        · exact absurd h.symm hka
        · exact ih.mpr h

theorem genNetAux_ok (cli : Client) :
    ∀ (names : List String) (acc : List (String × Attrs)),
      (∀ nm ∈ names, (cli.networkInspect nm).isOk = true) →
      ∃ m, generateNetworkInfoAux cli acc names = .ok m ∧
        ∀ k, mapLookup k m =
          (if k ∈ names then (cli.networkInspect k).toOption.map networkValues
           else mapLookup k acc) := by
  intro names
  induction names with
  | nil =>
    intro acc _
    refine ⟨acc, rfl, fun k => ?_⟩
    rw [if_neg (List.not_mem_nil k)]
  | cons nm rest ih =>
    intro acc hok
    cases hins : cli.networkInspect nm with
    | error e =>
      have hbad := hok nm (List.mem_cons_self nm rest)
      rw [hins] at hbad
      cases hbad
    | ok r =>
      obtain ⟨m, hm, hlook⟩ := ih (mapInsert nm (networkValues r) acc)
        (fun x hx => hok x (List.mem_cons_of_mem nm hx))
      refine ⟨m, ?_, ?_⟩
      · unfold generateNetworkInfoAux
        rw [hins]
        exact hm
      · intro k
        rw [hlook k]
        by_cases hkr : k ∈ rest
        · rw [if_pos hkr, if_pos (List.mem_cons_of_mem nm hkr)]
        · rw [if_neg hkr, mapLookup_mapInsert]
          by_cases hkn : nm = k
          · subst hkn
            rw [if_pos rfl, if_pos (List.mem_cons_self nm rest), hins]
            rfl
          · rw [if_neg hkn, if_neg (fun hmem => by
              rcases List.mem_cons.mp hmem with h | h
              · exact hkn h.symm
              · exact hkr h)]

theorem genNetAux_err (cli : Client) :
    ∀ (names : List String) (acc : List (String × Attrs)),
      (∃ nm ∈ names, (cli.networkInspect nm).isOk = false) →
      ∃ e, generateNetworkInfoAux cli acc names = .error e := by
  intro names
  induction names with
  | nil =>
    rintro acc ⟨nm, hn, _⟩
    cases hn
  | cons nm rest ih =>
    rintro acc ⟨x, hx, hbad⟩
    cases hins : cli.networkInspect nm with
    | error e =>
      refine ⟨e, ?_⟩
      unfold generateNetworkInfoAux
      rw [hins]
    | ok r =>
      rcases List.mem_cons.mp hx with rfl | hx'
      · rw [hins] at hbad
        cases hbad
      · obtain ⟨e, he⟩ := ih (mapInsert nm (networkValues r) acc) ⟨x, hx', hbad⟩
        refine ⟨e, ?_⟩
        unfold generateNetworkInfoAux
        rw [hins]
        exact he

/-! ## Claim C5 -/

/-- C5: with `includeAllContainers` enabled the networks section of a
successful run is exactly the host-wide export: one full-detail entry (keys
`name`, `scope`, `driver`, `enable_ipv6`, `internal`, `ipam`) for every
network on the host, independent of the per-container stubs; and if any
single network inspection fails, the whole generation returns an error. -/
theorem host_wide_networks (cli : Client) (nets : List NetworkSummary)
    (hnl : cli.networkListResult = .ok nets) :
    ((∀ s ∈ nets, (cli.networkInspect s.name).isOk = true) →
      ∃ m, generateNetworkInfo cli = .ok m ∧
        (∀ pat cv config logs n,
          GenerateComposeFile cli true pat cv = (.ok config, logs, n) →
          config.networks = m) ∧
        (∀ s ∈ nets, ∃ r, cli.networkInspect s.name = .ok r ∧
          mapLookup s.name m = some (networkValues r) ∧
          (networkValues r).map Prod.fst =
            ["name", "scope", "driver", "enable_ipv6", "internal", "ipam"]) ∧
        (∀ k, (mapLookup k m).isSome = true ↔ k ∈ nets.map NetworkSummary.name)) ∧
    ((∃ s ∈ nets, (cli.networkInspect s.name).isOk = false) →
      ∀ pat cv, ∃ e logs n,
        GenerateComposeFile cli true pat cv = (.error e, logs, n)) := by
  constructor
  · intro hok
    have hok' : ∀ nm ∈ nets.map NetworkSummary.name,
        (cli.networkInspect nm).isOk = true := by
      intro nm hnm
      obtain ⟨s, hs, rfl⟩ := List.mem_map.mp hnm
      exact hok s hs
    obtain ⟨m, hm, hlook⟩ := genNetAux_ok cli (nets.map NetworkSummary.name) [] hok'
    have hgen : generateNetworkInfo cli = .ok m := by
      unfold generateNetworkInfo listNetworkNames
      rw [hnl]
      exact hm
    refine ⟨m, hgen, ?_, ?_, ?_⟩
    · intro pat cv config logs n hrun
      cases hcl : cli.listResult with
      | error e =>
        unfold GenerateComposeFile listContainerNames at hrun
        rw [hcl] at hrun
        simp at hrun
      | ok cs2 =>
        unfold GenerateComposeFile listContainerNames at hrun
        rw [hcl] at hrun
        cases hen : effectiveNames pat (cs2.map displayName) with
        | error e =>
          simp only [hen] at hrun
          simp at hrun
        | ok names2 =>
          simp only [hen, hgen, if_pos rfl] at hrun
          rw [Prod.mk.injEq] at hrun
          cases Except.ok.inj hrun.1
          rfl
    · intro s hs
      cases hins : cli.networkInspect s.name with
      | error e =>
        have hbad := hok s hs
        rw [hins] at hbad
        cases hbad
      | ok r =>
        refine ⟨r, rfl, ?_, rfl⟩
        rw [hlook s.name, if_pos (List.mem_map_of_mem NetworkSummary.name hs), hins]
        rfl
    · intro k
      rw [hlook k]
      by_cases hk : k ∈ nets.map NetworkSummary.name
      · rw [if_pos hk]
        have := hok' k hk
        cases hins : cli.networkInspect k with
        | error e =>
          rw [hins] at this
          cases this
        | ok r =>
          simp [hins, Except.toOption, hk]
      · rw [if_neg hk]
        simp [mapLookup, hk]
  · rintro ⟨s, hs, hbad⟩ pat cv
    obtain ⟨e, he⟩ := genNetAux_err cli (nets.map NetworkSummary.name) []
      ⟨s.name, List.mem_map_of_mem NetworkSummary.name hs, hbad⟩
    have hgen : generateNetworkInfo cli = .error e := by
      unfold generateNetworkInfo listNetworkNames
      rw [hnl]
      exact he
    cases hcl : cli.listResult with
    | error e2 =>
      refine ⟨e2, [], 0, ?_⟩
      unfold GenerateComposeFile listContainerNames
      rw [hcl]
    | ok cs2 =>
      cases hen : effectiveNames pat (cs2.map displayName) with
      | error e2 =>
        refine ⟨e2, [], 0, ?_⟩
        unfold GenerateComposeFile listContainerNames
        rw [hcl]
        simp only [hen]
      | ok names2 =>
        refine ⟨"error generating network info: " ++ e,
          (List.foldl (processContainer cli cv) initState names2).logs,
          (List.foldl (processContainer cli cv) initState names2).inspectCalls, ?_⟩
        unfold GenerateComposeFile listContainerNames
        rw [hcl]
        simp only [hen, hgen, if_pos rfl]
        simp

/-! ## Concrete clients for the witnesses -/

def wSum1 : ContainerSummary := ⟨["/w1"], "id1"⟩

def wSum2 : ContainerSummary := ⟨["/w2"], "id2"⟩

def wJson1 : ContainerJSON := { emptyContainer with name := "/w1" }

def demoClient : Client :=
  ⟨.ok [wSum1, wSum2],
   [("id1", .ok wJson1), ("id2", .error "no such container")],
   .ok [], []⟩

def wAttrs : Attrs :=
  [("container_name", GoValue.str "w1"),
   ("labels", GoValue.strMap []),
   ("volumes", GoValue.strList []),
   ("environment", GoValue.strList []),
   ("command", GoValue.strSliceV []),
   ("entrypoint", GoValue.strSliceV []),
   ("ports", GoValue.strList []),
   ("privileged", GoValue.boolV false),
   ("restart", GoValue.restartPolicy ""),
   ("tty", GoValue.boolV false),
   ("stdin_open", GoValue.boolV false)]

def wConfig : Config := ⟨"3.6", [("w1", wAttrs)], [], []⟩

def wLogs : List String :=
  ["Error generating config for container w2: no such container"]

theorem demo_consistent : ConsistentClient demoClient [wSum1, wSum2] := by
  refine ⟨rfl, ?_, ?_, ?_, ?_⟩
  · decide
  · decide
  · decide
  · intro c hcm r hr
    rcases List.mem_cons.mp hcm with rfl | hcm2
    · rw [show demoClient.inspect wSum1.id = Except.ok wJson1 from rfl] at hr
      cases Except.ok.inj hr
      rfl
    · rcases List.mem_cons.mp hcm2 with rfl | h3
      · rw [show demoClient.inspect wSum2.id =
          Except.error "no such container" from rfl] at hr
        cases hr
      · cases h3

theorem services_keys_exact_witness :
    GenerateComposeFile demoClient false "" false = (.ok wConfig, wLogs, 2) ∧
    wConfig.services.map Prod.fst =
      ([wSum1, wSum2].filter (fun c =>
        decide (displayName c ∈ ["w1", "w2"]) &&
          inspectionOk demoClient c)).map displayName :=
  ⟨rfl, services_keys_exact demoClient [wSum1, wSum2] demo_consistent false false ""
    ["w1", "w2"] wConfig wLogs 2 rfl rfl⟩

theorem inspection_failure_skipped_witness :
    demoClient.inspect wSum2.id = .error "no such container" ∧
    (∃ config logs n,
      GenerateComposeFile demoClient false "" false = (.ok config, logs, n) ∧
      (∀ c ∈ [wSum1, wSum2], displayName c ∈ ["w1", "w2"] →
        inspectionOk demoClient c = true →
        displayName c ∈ config.services.map Prod.fst) ∧
      (displayName wSum2 ∈ ["w1", "w2"] →
        ("Error generating config for container " ++ displayName wSum2 ++ ": " ++
          "no such container") ∈ logs) ∧
      displayName wSum2 ∉ config.services.map Prod.fst) :=
  ⟨rfl, inspection_failure_skipped demoClient [wSum1, wSum2] demo_consistent false ""
    ["w1", "w2"] wSum2 "no such container" rfl (by decide) rfl⟩

def mynetRes : NetworkResource := ⟨"mynet", "local", "bridge", false, false, "default", []⟩

def hostClient : Client := ⟨.ok [], [], .ok [⟨"mynet"⟩], [("mynet", .ok mynetRes)]⟩

theorem host_wide_networks_witness :
    hostClient.networkListResult = .ok [⟨"mynet"⟩] ∧
    ∃ m, generateNetworkInfo hostClient = .ok m ∧
      mapLookup "mynet" m = some (networkValues mynetRes) := by
  obtain ⟨hall, _⟩ := host_wide_networks hostClient [⟨"mynet"⟩] rfl
  obtain ⟨m, hm, _, hdet, _⟩ := hall (by decide)
  obtain ⟨r, hr, hlook, _⟩ := hdet ⟨"mynet"⟩ (List.mem_cons_self _ _)
  cases Except.ok.inj (show Except.ok mynetRes = Except.ok r from hr)
  exact ⟨rfl, m, hm, hlook⟩

end Composegen
